import Mathlib

/-!
Shallow embedding of the Gemini Live persistence layer
(`backend/open_webui/models/gemini_live.py`) and the relevant parts of the
HTTP router (`backend/open_webui/routers/gemini.py`).

The relational store is modelled as a pair of row lists (table contents in
insertion order).  SQL `ORDER BY timestamp ASC` over the composite index
`(session_id, timestamp)` is modelled as a total sort of the filtered rows;
`ORDER BY timestamp DESC` walks the same index backwards, so it is modelled
as the reverse of the ascending order.  `uuid.uuid4()` outputs and
`int(time.time())` readings are inputs of each operation.  Primary-key
collisions (which would make `db.commit()` raise) leave the store unchanged
and yield `none`.
-/

namespace GeminiLive

/-- Row of the `gemini_session` table / `GeminiSessionModel` pydantic model. -/
structure GeminiSessionModel where
  id : String
  user_id : String
  title : Option String
  summary : Option String
  status : String
  model : Option String
  voice : Option String
  message_count : Nat
  last_summary_at : Option Nat
  updated_at : Nat
  created_at : Nat
deriving DecidableEq, Repr

/-- Row of the `gemini_transcript` table / `GeminiTranscriptModel` pydantic model. -/
structure GeminiTranscriptModel where
  id : String
  session_id : String
  role : String
  content : String
  audio_duration : Option Nat
  timestamp : Nat
deriving DecidableEq, Repr

/-- The relational store: contents of both tables, in insertion order. -/
structure Store where
  sessions : List GeminiSessionModel
  transcripts : List GeminiTranscriptModel
deriving DecidableEq, Repr

def emptyStore : Store := ⟨[], []⟩

/-- `db.get(GeminiSession, id)`: primary-key lookup. -/
def get_session_by_id (st : Store) (id : String) : Option GeminiSessionModel :=
  st.sessions.find? (fun s => s.id == id)

/-- Mutating the single row returned by `db.get`: replace the first row whose
primary key matches. -/
def replaceFirstSession (l : List GeminiSessionModel) (id : String)
    (g : GeminiSessionModel → GeminiSessionModel) : List GeminiSessionModel :=
  match l with
  | [] => []
  | s :: rest => if s.id == id then g s :: rest else s :: replaceFirstSession rest id g

/-- `GeminiSessionsTable.create_session`: fresh id and clock reading are inputs;
a primary-key collision makes the insert fail with the store unchanged. -/
def create_session (st : Store) (user_id : String) (model voice : Option String)
    (id : String) (now : Nat) : Option GeminiSessionModel × Store :=
  if st.sessions.any (fun s => s.id == id) then (none, st)
  else
    let s : GeminiSessionModel :=
      { id := id, user_id := user_id, title := none, summary := none,
        status := "active", model := model, voice := voice, message_count := 0,
        last_summary_at := none, updated_at := now, created_at := now }
    (some s, { st with sessions := st.sessions ++ [s] })

/-- `GeminiSessionsTable.update_session`: returns `None` when the row is missing
or the owning user does not match; otherwise applies the partial update and
refreshes `updated_at`. -/
def update_session (st : Store) (id user_id : String)
    (title summary status : Option String) (now : Nat) :
    Option GeminiSessionModel × Store :=
  match get_session_by_id st id with
  | none => (none, st)
  | some s =>
    if s.user_id != user_id then (none, st)
    else
      let s' : GeminiSessionModel :=
        { s with
          title := match title with | some t => some t | none => s.title
          summary := match summary with | some v => some v | none => s.summary
          last_summary_at := match summary with | some _ => some now | none => s.last_summary_at
          status := match status with | some v => v | none => s.status
          updated_at := now }
      (some s', { st with sessions := replaceFirstSession st.sessions id (fun _ => s') })

/-- `GeminiSessionsTable.increment_message_count`. -/
def increment_message_count (st : Store) (id : String) (now : Nat) :
    Option GeminiSessionModel × Store :=
  match get_session_by_id st id with
  | none => (none, st)
  | some s =>
    let s' : GeminiSessionModel :=
      { s with message_count := s.message_count + 1, updated_at := now }
    (some s', { st with sessions := replaceFirstSession st.sessions id (fun _ => s') })

/-- `GeminiSessionsTable.delete_session`: owner check, then bulk transcript
delete and session delete in one unit. -/
def delete_session (st : Store) (id user_id : String) : Bool × Store :=
  match get_session_by_id st id with
  | none => (false, st)
  | some s =>
    if s.user_id != user_id then (false, st)
    else
      (true,
        { sessions := st.sessions.filter (fun r => r.id != id),
          transcripts := st.transcripts.filter (fun r => r.session_id != id) })

/-- `GeminiTranscriptsTable.add_transcript`: inserts the entry, then calls
`GeminiSessions.increment_message_count` on the parent session.  No check that
the session exists or is owned by the caller. -/
def add_transcript (st : Store) (session_id role content : String)
    (audio_duration : Option Nat) (id : String) (now : Nat) :
    Option GeminiTranscriptModel × Store :=
  if st.transcripts.any (fun r => r.id == id) then (none, st)
  else
    let t : GeminiTranscriptModel :=
      { id := id, session_id := session_id, role := role, content := content,
        audio_duration := audio_duration, timestamp := now }
    let st1 : Store := { st with transcripts := st.transcripts ++ [t] }
    (some t, (increment_message_count st1 session_id now).2)

/-- Ascending-timestamp order used by the transcript queries. -/
def tsLe (a b : GeminiTranscriptModel) : Prop :=
  a.timestamp ≤ b.timestamp

instance : DecidableRel tsLe := fun a b => Nat.decLe a.timestamp b.timestamp

instance : IsTotal GeminiTranscriptModel tsLe :=
  ⟨fun a b => Nat.le_total a.timestamp b.timestamp⟩

instance : IsTrans GeminiTranscriptModel tsLe :=
  ⟨fun _ _ _ => Nat.le_trans⟩

/-- The transcript rows of one session (SQL `filter_by(session_id=...)`). -/
def sessionTranscripts (st : Store) (session_id : String) : List GeminiTranscriptModel :=
  st.transcripts.filter (fun t => t.session_id == session_id)

/-- A session's transcripts in `ORDER BY timestamp ASC` order.  The backing
index `(session_id, timestamp)` gives a fixed total order; the `DESC`
direction scans it backwards, i.e. is the reverse of this list. -/
def sessionTranscriptsAsc (st : Store) (session_id : String) : List GeminiTranscriptModel :=
  List.insertionSort tsLe (sessionTranscripts st session_id)

/-- `GeminiTranscriptsTable.get_transcripts_by_session_id`: ascending order,
offset, limit. -/
def get_transcripts_by_session_id (st : Store) (session_id : String)
    (limit offset : Nat) : List GeminiTranscriptModel :=
  ((sessionTranscriptsAsc st session_id).drop offset).take limit

/-- `GeminiTranscriptsTable.get_recent_transcripts`: descending order, limit,
then a Python `list.reverse()` back into chronological order. -/
def get_recent_transcripts (st : Store) (session_id : String) (limit : Nat) :
    List GeminiTranscriptModel :=
  (((sessionTranscriptsAsc st session_id).reverse).take limit).reverse

/-- `GeminiTranscriptsTable.get_transcript_count`. -/
def get_transcript_count (st : Store) (session_id : String) : Nat :=
  (sessionTranscripts st session_id).length

/-- `GeminiTranscriptsTable.get_transcripts_since`: both filters applied in the
query, ascending order. -/
def get_transcripts_since (st : Store) (session_id : String)
    (since_timestamp : Nat) : List GeminiTranscriptModel :=
  List.insertionSort tsLe
    (st.transcripts.filter
      (fun t => t.session_id == session_id && decide (since_timestamp < t.timestamp)))

/-- `GeminiTranscriptsTable.delete_transcripts_by_session_id`. -/
def delete_transcripts_by_session_id (st : Store) (session_id : String) :
    Bool × Store :=
  (true, { st with transcripts := st.transcripts.filter (fun r => r.session_id != session_id) })

/-- Descending `updated_at` order used by the session listing queries. -/
def updGe (a b : GeminiSessionModel) : Prop :=
  b.updated_at ≤ a.updated_at

instance : DecidableRel updGe := fun a b => Nat.decLe b.updated_at a.updated_at

instance : IsTotal GeminiSessionModel updGe :=
  ⟨fun a b => Nat.le_total b.updated_at a.updated_at⟩

instance : IsTrans GeminiSessionModel updGe :=
  ⟨fun _ _ _ hab hbc => Nat.le_trans hbc hab⟩

/-- `filter_by(user_id=..., status="active")`. -/
def userActiveSessions (st : Store) (user_id : String) : List GeminiSessionModel :=
  st.sessions.filter (fun s => s.user_id == user_id && s.status == "active")

/-- `GeminiSessionsTable.get_active_session_by_user_id`: active sessions of the
user, `ORDER BY updated_at DESC`, `.first()`. -/
def get_active_session_by_user_id (st : Store) (user_id : String) :
    Option GeminiSessionModel :=
  (List.insertionSort updGe (userActiveSessions st user_id)).head?

/-- `GeminiTranscriptsTable.format_transcript_for_context`. -/
def format_transcript_for_context (transcripts : List GeminiTranscriptModel) : String :=
  String.intercalate "\n"
    (transcripts.map (fun t =>
      "[" ++ (if t.role == "user" then "USER" else "GEMINI") ++ "]: " ++ t.content))

/-- The two fixed leading lines of `build_context_restoration_prompt`. -/
def promptBase : List String :=
  ["[SESSION RESTORATION - Please read carefully before responding]", ""]

/-- The fixed trailing instruction lines of `build_context_restoration_prompt`. -/
def promptTrailer : List String :=
  ["CURRENT SCREEN:",
   "[Analyzing shared screen/webcam...]",
   "",
   "INSTRUCTIONS:",
   "1. Read the context and recent conversation carefully",
   "2. Look at what\x27s currently on screen",
   "3. Use deductive reasoning to understand:",
   "   - What problem were we solving?",
   "   - What approach were we taking?",
   "   - Where did we leave off?",
   "   - What\x27s the current state based on the screen?",
   "4. Begin your response with a brief confirmation:",
   "   \"I see we were working on [X]. Based on the screen, it looks like [Y]. Let me continue from there...\"",
   "5. Only proceed once you\x27re confident you understand the context",
   "",
   "If anything is unclear, ask for clarification before continuing."]

/-- `build_context_restoration_prompt` from the router.  Python truthiness:
`if summary:` is false for both `None` and the empty string, likewise
`if transcripts:` for the empty string. -/
def build_context_restoration_prompt (summary : Option String)
    (transcripts : String) : String :=
  let summaryText := summary.getD ""
  let prompt_parts :=
    promptBase
      ++ (if summaryText == "" then [] else ["PREVIOUS CONTEXT:", summaryText, ""])
      ++ (if transcripts == "" then [] else ["RECENT CONVERSATION:", transcripts, ""])
      ++ promptTrailer
  String.intercalate "\n" prompt_parts

/-- The composite formatter as used by `GET /context/{session_id}`:
format the entries, then build the restoration prompt. -/
def contextPrompt (summary : Option String)
    (transcripts : List GeminiTranscriptModel) : String :=
  build_context_restoration_prompt summary (format_transcript_for_context transcripts)

/-- Result of a request handler: a value or an `HTTPException(status, detail)`. -/
inductive HandlerResult (α : Type) where
  | ok : α → HandlerResult α
  | httpError : Nat → String → HandlerResult α
deriving DecidableEq, Repr

/-- Router handler for `GET /session/{session_id}` (`get_session`):
404 when missing, 403 when the caller is not the owner. -/
def get_session (st : Store) (session_id user_id : String) :
    HandlerResult GeminiSessionModel :=
  match get_session_by_id st session_id with
  | none => HandlerResult.httpError 404 "Session not found"
  | some s =>
    if s.user_id != user_id then
      HandlerResult.httpError 403 "Not authorized to access this session"
    else HandlerResult.ok s

/-- Router handler for `GET /session/active` (`get_active_session`):
returns the most recent active session of the caller, possibly none. -/
def get_active_session (st : Store) (user_id : String) : Option GeminiSessionModel :=
  get_active_session_by_user_id st user_id

/-- Router handler for `GET /api-key` (`get_gemini_api_key_for_live`):
403 when Gemini Live is disabled, 400 when the key list is empty or its
first entry is falsy, otherwise the first key together with the live voice. -/
def get_gemini_api_key_for_live (live_enabled : Bool) (api_keys : List String)
    (live_voice : String) : HandlerResult (String × String) :=
  if !live_enabled then HandlerResult.httpError 403 "Gemini Live is not enabled"
  else
    match api_keys with
    | [] => HandlerResult.httpError 400 "No Gemini API key configured"
    | k :: _ =>
      if k == "" then HandlerResult.httpError 400 "No Gemini API key configured"
      else HandlerResult.ok (k, live_voice)

/-- One segment of a route pattern: a literal or a `{path}` parameter. -/
inductive Seg where
  | lit : String → Seg
  | param : Seg
deriving DecidableEq, Repr

/-- The GET endpoints of the router. -/
inductive GetEndpoint where
  | config
  | configUser
  | models
  | modelsLive
  | apiKey
  | sessionById
  | sessions
  | sessionActive
  | transcriptsBySession
  | transcriptsRecent
  | transcriptsSinceTs
  | sessionContext
deriving DecidableEq, Repr

/-- The router's GET routes, in the order their decorators appear in
`routers/gemini.py`.  FastAPI/Starlette matches routes in registration
order, so this order is load-bearing. -/
def getRoutes : List (GetEndpoint × List Seg) :=
  [(GetEndpoint.config, [Seg.lit "config"]),
   (GetEndpoint.configUser, [Seg.lit "config", Seg.lit "user"]),
   (GetEndpoint.models, [Seg.lit "models"]),
   (GetEndpoint.modelsLive, [Seg.lit "models", Seg.lit "live"]),
   (GetEndpoint.apiKey, [Seg.lit "api-key"]),
   (GetEndpoint.sessionById, [Seg.lit "session", Seg.param]),
   (GetEndpoint.sessions, [Seg.lit "sessions"]),
   (GetEndpoint.sessionActive, [Seg.lit "session", Seg.lit "active"]),
   (GetEndpoint.transcriptsBySession, [Seg.lit "transcripts", Seg.param]),
   (GetEndpoint.transcriptsRecent, [Seg.lit "transcripts", Seg.param, Seg.lit "recent"]),
   (GetEndpoint.transcriptsSinceTs,
     [Seg.lit "transcripts", Seg.param, Seg.lit "since", Seg.param]),
   (GetEndpoint.sessionContext, [Seg.lit "context", Seg.param])]

/-- Does a pattern match a path (given as its segments)?  A `{param}`
segment matches any single path segment. -/
def matchSegs : List Seg → List String → Bool
  | [], [] => true
  | Seg.lit s :: ps, x :: xs => s == x && matchSegs ps xs
  | Seg.param :: ps, _ :: xs => matchSegs ps xs
  | _, _ => false

/-- Route resolution: the first registered GET route whose pattern matches. -/
def resolveGet (path : List String) : Option GetEndpoint :=
  (getRoutes.find? (fun r => matchSegs r.2 path)).map (fun r => r.1)

/-- The persistence operations as a step alphabet (uuid and clock inputs are
carried in the operation). -/
inductive Op where
  | createSession (user_id : String) (model voice : Option String) (id : String) (now : Nat)
  | updateSession (id user_id : String) (title summary status : Option String) (now : Nat)
  | incrementMessageCount (id : String) (now : Nat)
  | addTranscript (session_id role content : String) (audio_duration : Option Nat)
      (id : String) (now : Nat)
  | deleteSession (id user_id : String)
deriving DecidableEq, Repr

/-- Effect of one persistence operation on the store. -/
def applyOp (st : Store) : Op → Store
  | Op.createSession uid model voice id now => (create_session st uid model voice id now).2
  | Op.updateSession id uid title summary status now =>
      (update_session st id uid title summary status now).2
  | Op.incrementMessageCount id now => (increment_message_count st id now).2
  | Op.addTranscript sid role content ad id now =>
      (add_transcript st sid role content ad id now).2
  | Op.deleteSession id uid => (delete_session st id uid).2

/-- Run a sequence of operations from the empty store. -/
def runOps (ops : List Op) : Store :=
  ops.foldl applyOp emptyStore

/-- One `add_transcript` call for a fixed session: its arguments plus the
generated uuid and the clock reading. -/
structure AppendCall where
  role : String
  content : String
  audio_duration : Option Nat
  id : String
  now : Nat
deriving DecidableEq, Repr

/-- Run a sequence of `add_transcript` calls against one session. -/
def applyAppends (st : Store) (session_id : String) (calls : List AppendCall) : Store :=
  calls.foldl
    (fun acc c => (add_transcript acc session_id c.role c.content c.audio_duration c.id c.now).2)
    st

/-- The allowed status strings. -/
def statusOk (s : String) : Prop :=
  s = "active" ∨ s = "timeout" ∨ s = "ended"

instance (s : String) : Decidable (statusOk s) := by
  unfold statusOk
  infer_instance

/-- An operation whose status argument (when it has one) is an allowed
status or absent. -/
def opStatusOk : Op → Prop
  | Op.updateSession _ _ _ _ status _ =>
      status = none ∨ status = some "active" ∨ status = some "timeout" ∨ status = some "ended"
  | _ => True

instance (op : Op) : Decidable (opStatusOk op) := by
  cases op <;> (unfold opStatusOk; infer_instance)

/-! ### Helper lemmas -/

theorem sessionTranscriptsAsc_perm (st : Store) (sid : String) :
    (sessionTranscriptsAsc st sid).Perm (sessionTranscripts st sid) :=
  List.perm_insertionSort tsLe _

theorem sessionTranscriptsAsc_sorted (st : Store) (sid : String) :
    List.Sorted tsLe (sessionTranscriptsAsc st sid) :=
  List.sorted_insertionSort tsLe _

theorem sessionTranscriptsAsc_length (st : Store) (sid : String) :
    (sessionTranscriptsAsc st sid).length = get_transcript_count st sid :=
  (sessionTranscriptsAsc_perm st sid).length_eq

/-! ### Theorems for the claims -/

/-- C2: `get_recent_transcripts` returns exactly the chronologically last
`min limit total` transcript entries of the session — the suffix of length
`min limit total` of the ascending-timestamp list — still in ascending
timestamp order. -/
theorem recentTranscripts_spec (st : Store) (sid : String) (limit : Nat) :
    get_recent_transcripts st sid limit
      = (sessionTranscriptsAsc st sid).drop
          ((sessionTranscriptsAsc st sid).length - limit) ∧
    (get_recent_transcripts st sid limit).length
      = min limit (get_transcript_count st sid) ∧
    List.Sorted tsLe (get_recent_transcripts st sid limit) ∧
    List.IsSuffix (get_recent_transcripts st sid limit) (sessionTranscriptsAsc st sid) := by
  have heq : get_recent_transcripts st sid limit
      = (sessionTranscriptsAsc st sid).drop
          ((sessionTranscriptsAsc st sid).length - limit) := by
    unfold get_recent_transcripts
    rw [List.take_reverse, List.reverse_reverse]
  refine ⟨heq, ?_, ?_, ?_⟩
  · rw [heq, List.length_drop, ← sessionTranscriptsAsc_length st sid]
    omega
  · rw [heq]
    exact List.Pairwise.sublist (List.drop_sublist _ _) (sessionTranscriptsAsc_sorted st sid)
  · rw [heq]
    exact List.drop_suffix _ _

/-- C3: `get_transcripts_since` returns exactly the session's entries with
timestamp strictly greater than the bound, in ascending timestamp order,
and (being a pure function of the store) is idempotent under repeated calls. -/
theorem transcriptsSince_spec (st : Store) (sid : String) (t0 : Nat) :
    (∀ e, e ∈ get_transcripts_since st sid t0 ↔
        (e ∈ st.transcripts ∧ e.session_id = sid ∧ t0 < e.timestamp)) ∧
    (get_transcripts_since st sid t0).Perm
      (st.transcripts.filter
        (fun t => t.session_id == sid && decide (t0 < t.timestamp))) ∧
    List.Sorted tsLe (get_transcripts_since st sid t0) ∧
    get_transcripts_since st sid t0 = get_transcripts_since st sid t0 := by
  refine ⟨?_, List.perm_insertionSort tsLe _, List.sorted_insertionSort tsLe _, rfl⟩
  intro e
  unfold get_transcripts_since
  rw [(List.perm_insertionSort tsLe _).mem_iff]
  simp [List.mem_filter, and_assoc]

/-- C5: `update_session` called for a missing session id, or by a caller that
is not the owning user, returns the not-found signal `none` and leaves the
store — hence the stored record, every field included — unchanged. -/
theorem updateSession_nonOwner_noop (st : Store) (sid uid : String)
    (title summary status : Option String) (now : Nat)
    (h : (get_session_by_id st sid).all (fun s => s.user_id != uid) = true) :
    update_session st sid uid title summary status now = (none, st) := by
  unfold update_session
  cases hg : get_session_by_id st sid with
  | none => rfl
  | some s =>
    rw [hg] at h
    simp only [Option.all_some] at h
    simp [h]

/-- Witness for C5 on a concrete store owned by `u1`, called by `u2`. -/
theorem updateSession_nonOwner_noop_witness :
    update_session
        ⟨[⟨"s1", "u1", none, none, "active", none, none, 0, none, 5, 5⟩], []⟩
        "s1" "u2" (some "t") none none 9
      = (none, ⟨[⟨"s1", "u1", none, none, "active", none, none, 0, none, 5, 5⟩], []⟩) :=
  updateSession_nonOwner_noop _ "s1" "u2" (some "t") none none 9 (by decide)

/-- C8: the context formatter is a pure function of its two inputs: formatting
the same `(summary, transcripts)` pair twice yields byte-identical strings. -/
theorem contextPrompt_deterministic (summary : Option String)
    (transcripts : List GeminiTranscriptModel) :
    contextPrompt summary transcripts = contextPrompt summary transcripts ∧
    format_transcript_for_context transcripts
      = format_transcript_for_context transcripts ∧
    (contextPrompt summary transcripts).data = (contextPrompt summary transcripts).data :=
  ⟨rfl, rfl, rfl⟩

/-- Concrete store for the `/session/active` routing analysis: user `u1`
owns one active session `s1`; no session has the literal id `"active"`. -/
def storeC6 : Store :=
  ⟨[⟨"s1", "u1", none, none, "active", none, none, 0, none, 5, 5⟩], []⟩

/-- C6: a GET request for path `/session/active` is matched against the
routes in registration order, and `/session/{session_id}` is registered
first, so the request is dispatched to `get_session` with
`session_id = "active"`.  On a store where user `u1` owns an active session
(and no session has id `"active"`), that handler answers
404 "Session not found", while the `get_active_session` handler the claim
(and the route's own docstring) describes would have returned the session. -/
theorem sessionActive_route_shadowed :
    resolveGet ["session", "active"] = some GetEndpoint.sessionById ∧
    resolveGet ["session", "active"] ≠ some GetEndpoint.sessionActive ∧
    get_session storeC6 "active" "u1"
      = HandlerResult.httpError 404 "Session not found" ∧
    get_active_session storeC6 "u1"
      = some ⟨"s1", "u1", none, none, "active", none, none, 0, none, 5, 5⟩ :=
  ⟨rfl, by decide, rfl, rfl⟩

theorem mem_replaceFirstSession {l : List GeminiSessionModel} {sid : String}
    {g : GeminiSessionModel → GeminiSessionModel} {x : GeminiSessionModel}
    (hx : x ∈ replaceFirstSession l sid g) : x ∈ l ∨ ∃ b ∈ l, x = g b := by
  induction l with
  | nil => simp [replaceFirstSession] at hx
  | cons a rest ih =>
    unfold replaceFirstSession at hx
    by_cases h : (a.id == sid) = true
    · rw [if_pos h] at hx
      rcases List.mem_cons.mp hx with h1 | h1
      · exact Or.inr ⟨a, List.mem_cons_self _ _, h1⟩
      · exact Or.inl (List.mem_cons_of_mem _ h1)
    · rw [if_neg h] at hx
      rcases List.mem_cons.mp hx with h1 | h1
      · exact Or.inl (h1 ▸ List.mem_cons_self _ _)
      · rcases ih h1 with h2 | ⟨b, hb, he⟩
        · exact Or.inl (List.mem_cons_of_mem _ h2)
        · exact Or.inr ⟨b, List.mem_cons_of_mem _ hb, he⟩

theorem increment_sessions_status (st : Store) (id : String) (now : Nat)
    (hst : ∀ s ∈ st.sessions, statusOk s.status) :
    ∀ s ∈ ((increment_message_count st id now).2).sessions, statusOk s.status := by
  unfold increment_message_count
  cases hg : get_session_by_id st id with
  | none => simpa using hst
  | some s0 =>
    intro x hx
    rcases mem_replaceFirstSession hx with h | ⟨b, _, he⟩
    · exact hst x h
    · rw [he]
      exact hst s0 (List.mem_of_find?_eq_some hg)

theorem statusInvariant_step (st : Store) (op : Op)
    (hst : ∀ s ∈ st.sessions, statusOk s.status) (hop : opStatusOk op) :
    ∀ s ∈ (applyOp st op).sessions, statusOk s.status := by
  cases op with
  | createSession uid model voice id now =>
    simp only [applyOp]
    unfold create_session
    by_cases h : (st.sessions.any (fun s => s.id == id)) = true
    · simpa [h] using hst
    · rw [if_neg h]
      intro x hx
      rcases List.mem_append.mp hx with h1 | h1
      · exact hst x h1
      · rw [List.mem_singleton.mp h1]
        exact Or.inl rfl
  | updateSession id uid title summary status now =>
    simp only [applyOp]
    unfold update_session
    cases hg : get_session_by_id st id with
    | none => simpa using hst
    | some s0 =>
      simp only []
      by_cases hu : (s0.user_id != uid) = true
      · simpa [hu] using hst
      · rw [if_neg hu]
        intro x hx
        rcases mem_replaceFirstSession hx with h | ⟨b, _, he⟩
        · exact hst x h
        · rw [he]
          have hmem := hst s0 (List.mem_of_find?_eq_some hg)
          simp only [opStatusOk] at hop
          rcases hop with h0 | h0 | h0 | h0 <;> subst h0
          · exact hmem
          · exact Or.inl rfl
          · exact Or.inr (Or.inl rfl)
          · exact Or.inr (Or.inr rfl)
  | incrementMessageCount id now =>
    simp only [applyOp]
    exact increment_sessions_status st id now hst
  | addTranscript sid role content ad id now =>
    simp only [applyOp]
    unfold add_transcript
    by_cases h : (st.transcripts.any (fun r => r.id == id)) = true
    · simpa [h] using hst
    · rw [if_neg h]
      exact increment_sessions_status _ sid now hst
  | deleteSession id uid =>
    simp only [applyOp]
    unfold delete_session
    cases hg : get_session_by_id st id with
    | none => simpa using hst
    | some s0 =>
      simp only []
      by_cases hu : (s0.user_id != uid) = true
      · simpa [hu] using hst
      · rw [if_neg hu]
        intro x hx
        exact hst x (List.mem_of_mem_filter hx)

theorem statusInvariant_run (ops : List Op) :
    ∀ st, (∀ s ∈ st.sessions, statusOk s.status) → (∀ op ∈ ops, opStatusOk op) →
      ∀ s ∈ (ops.foldl applyOp st).sessions, statusOk s.status := by
  induction ops with
  | nil => intro st hst _; simpa using hst
  | cons op rest ih =>
    intro st hst hops
    exact ih _ (statusInvariant_step st op hst (hops op (List.mem_cons_self _ _)))
      (fun o ho => hops o (List.mem_cons_of_mem _ ho))

/-- A reachable store whose session has status `"bogus"`:
`update_session` stores any status string without validation. -/
def badStatusOps : List Op :=
  [Op.createSession "u1" none none "s1" 0,
   Op.updateSession "s1" "u1" none none (some "bogus") 1]

/-- C9 counterexample: a store reachable from the empty store by a
create followed by an owner update with status `"bogus"` contains a session
whose status is none of `active`, `timeout`, `ended`. -/
theorem statusInvariant_counterexample :
    (runOps badStatusOps).sessions.map (fun s => s.status) = ["bogus"] ∧
    ¬ statusOk "bogus" := by
  decide

/-- C9 (amended): in every store reachable from the empty store by operation
sequences in which every `update_session` status argument is absent or one of
`active`, `timeout`, `ended`, every stored session's status is one of those
three values.  (The code itself never validates the status string.) -/
theorem statusInvariant_amended (ops : List Op)
    (hops : ∀ op ∈ ops, opStatusOk op) :
    ∀ s ∈ (runOps ops).sessions, statusOk s.status :=
  statusInvariant_run ops emptyStore (by simp [emptyStore]) hops

/-- Operation sequence with only valid statuses, for the C9 witness. -/
def okStatusOps : List Op :=
  [Op.createSession "u1" none none "s1" 0,
   Op.addTranscript "s1" "user" "hello" none "t1" 1,
   Op.updateSession "s1" "u1" (some "title") none (some "ended") 2]

/-- Witness for the amended C9 theorem on a concrete operation sequence. -/
theorem statusInvariant_amended_witness :
    (∀ op ∈ okStatusOps, opStatusOk op) ∧
    ∀ s ∈ (runOps okStatusOps).sessions, statusOk s.status :=
  ⟨by decide, statusInvariant_amended okStatusOps (by decide)⟩

/-- C10 counterexample: with Gemini Live enabled and key list `["", "k2"]`,
a non-empty API key is configured, yet the endpoint raises 400 because only
the first entry is consulted. -/
theorem apiKey_emptyFirstKey_counterexample :
    get_gemini_api_key_for_live true ["", "k2"] "Puck"
      = HandlerResult.httpError 400 "No Gemini API key configured" ∧
    "k2" ∈ (["", "k2"] : List String) ∧ "k2" ≠ "" :=
  ⟨rfl, by decide, by decide⟩

/-- C10 (amended): the endpoint raises 403 iff Gemini Live is disabled;
otherwise it raises 400 iff the configured key list is empty or its first
entry is the empty string; otherwise it returns the first configured key in
plaintext together with the configured live voice. -/
theorem apiKey_spec (enabled : Bool) (keys : List String) (voice : String) :
    (get_gemini_api_key_for_live enabled keys voice
        = HandlerResult.httpError 403 "Gemini Live is not enabled"
      ↔ enabled = false) ∧
    (enabled = true →
      (get_gemini_api_key_for_live enabled keys voice
          = HandlerResult.httpError 400 "No Gemini API key configured"
        ↔ keys.headD "" = "")) ∧
    (enabled = true → keys.headD "" ≠ "" →
      get_gemini_api_key_for_live enabled keys voice
        = HandlerResult.ok (keys.headD "", voice)) := by
  unfold get_gemini_api_key_for_live
  cases enabled with
  | false => simp
  | true =>
    cases keys with
    | nil => simp
    | cons k rest =>
      by_cases hk : k = ""
      · subst hk
        simp
      · have hb : (k == "") = false := by simpa using hk
        simp [hb, hk]

/-- Witness for the amended C10 theorem at a concrete configuration. -/
theorem apiKey_spec_witness :
    get_gemini_api_key_for_live true ["key1"] "Puck"
      = HandlerResult.ok ("key1", "Puck") :=
  (apiKey_spec true ["key1"] "Puck").2.2 rfl (by decide)

/-- C4: `delete_session` returns `true` iff the session exists and its owning
user is the caller; on success the session's transcripts and the session row
are removed in the same step, so `get_transcripts_by_session_id` and
`get_transcript_count` for that id afterwards reflect zero entries. -/
theorem deleteSession_spec (st : Store) (sid uid : String) :
    ((delete_session st sid uid).1 = true ↔
      ∃ s, get_session_by_id st sid = some s ∧ s.user_id = uid) ∧
    ((delete_session st sid uid).1 = true →
      get_session_by_id (delete_session st sid uid).2 sid = none ∧
      get_transcript_count (delete_session st sid uid).2 sid = 0 ∧
      ∀ limit offset,
        get_transcripts_by_session_id (delete_session st sid uid).2 sid limit offset
          = []) := by
  unfold delete_session
  cases hg : get_session_by_id st sid with
  | none => simp
  | some s =>
    simp only []
    by_cases hu : s.user_id = uid
    · have hb : (s.user_id != uid) = false := by simp [hu]
      rw [hb]
      simp only [Bool.false_eq_true, if_false]
      have hsess : sessionTranscripts
          (Store.mk (st.sessions.filter (fun r => r.id != sid))
            (st.transcripts.filter (fun r => r.session_id != sid))) sid = [] := by
        unfold sessionTranscripts
        simp only [List.filter_filter]
        apply List.filter_eq_nil_iff.mpr
        intro a _
        simp [Bool.and_comm]
      refine ⟨by simp [hu], fun _ => ⟨?_, ?_, ?_⟩⟩
      · unfold get_session_by_id
        apply List.find?_eq_none.mpr
        intro x hx
        have := (List.mem_filter.mp hx).2
        simpa using this
      · unfold get_transcript_count
        rw [hsess]
        rfl
      · intro limit offset
        unfold get_transcripts_by_session_id sessionTranscriptsAsc
        rw [hsess]
        simp
    · have hb : (s.user_id != uid) = true := by simpa using hu
      rw [hb]
      simp only [if_true]
      constructor
      · constructor
        · intro h
          simp at h
        · rintro ⟨s', hs', hu'⟩
          obtain rfl : s' = s := by
            injection hs' with h
            exact h.symm
          exact absurd hu' hu
      · intro h
        simp at h

/-- Concrete store for the C4 witness: session `s1` of user `u1` with one
transcript entry. -/
def storeC4 : Store :=
  ⟨[⟨"s1", "u1", none, none, "active", none, none, 1, none, 5, 5⟩],
   [⟨"t1", "s1", "user", "hello", none, 6⟩]⟩

/-- Witness for C4: deleting `s1` as its owner succeeds and both transcript
queries afterwards reflect zero entries. -/
theorem deleteSession_spec_witness :
    (delete_session storeC4 "s1" "u1").1 = true ∧
    get_transcript_count (delete_session storeC4 "s1" "u1").2 "s1" = 0 ∧
    get_transcripts_by_session_id (delete_session storeC4 "s1" "u1").2 "s1" 100 0 = [] ∧
    get_session_by_id (delete_session storeC4 "s1" "u1").2 "s1" = none := by
  have h := deleteSession_spec storeC4 "s1" "u1"
  have h1 : (delete_session storeC4 "s1" "u1").1 = true := h.1.mpr ⟨_, rfl, rfl⟩
  have h2 := h.2 h1
  exact ⟨h1, h2.2.1, h2.2.2 100 0, h2.1⟩

theorem find?_replaceFirstSession (l : List GeminiSessionModel) (sid : String)
    (g : GeminiSessionModel → GeminiSessionModel)
    (hg : ∀ s ∈ l, s.id = sid → (g s).id = sid) :
    (replaceFirstSession l sid g).find? (fun s => s.id == sid)
      = (l.find? (fun s => s.id == sid)).map g := by
  induction l with
  | nil => rfl
  | cons a rest ih =>
    unfold replaceFirstSession
    by_cases h : a.id = sid
    · have hb : (a.id == sid) = true := by simpa using h
      have hga : ((g a).id == sid) = true := by
        simpa using hg a (List.mem_cons_self _ _) h
      rw [if_pos hb,
        List.find?_cons_of_pos (p := fun s : GeminiSessionModel => s.id == sid) _ hga,
        List.find?_cons_of_pos (p := fun s : GeminiSessionModel => s.id == sid) _ hb]
      rfl
    · have hb : ¬ ((a.id == sid) = true) := by simpa using h
      rw [if_neg hb,
        List.find?_cons_of_neg (p := fun s : GeminiSessionModel => s.id == sid) _ hb,
        List.find?_cons_of_neg (p := fun s : GeminiSessionModel => s.id == sid) _ hb]
      exact ih (fun x hx => hg x (List.mem_cons_of_mem _ hx))

theorem increment_message_count_transcripts (st : Store) (id : String) (now : Nat) :
    ((increment_message_count st id now).2).transcripts = st.transcripts := by
  unfold increment_message_count
  cases hg : get_session_by_id st id <;> rfl

theorem get_transcript_count_congr (st st' : Store) (sid : String)
    (h : st.transcripts = st'.transcripts) :
    get_transcript_count st sid = get_transcript_count st' sid := by
  unfold get_transcript_count sessionTranscripts
  rw [h]

theorem get_session_by_id_mk (l : List GeminiSessionModel)
    (tr : List GeminiTranscriptModel) (sid : String) :
    get_session_by_id ⟨l, tr⟩ sid = l.find? (fun x => x.id == sid) :=
  rfl

theorem get_session_by_id_increment (st : Store) (sid : String) (now : Nat)
    (s : GeminiSessionModel) (h : get_session_by_id st sid = some s) :
    get_session_by_id ((increment_message_count st sid now).2) sid
      = some { s with message_count := s.message_count + 1, updated_at := now } := by
  have hid : s.id = sid := by simpa using List.find?_some h
  have h' : st.sessions.find? (fun x => x.id == sid) = some s := h
  unfold increment_message_count
  rw [h]
  simp only []
  rw [get_session_by_id_mk,
    find?_replaceFirstSession st.sessions sid
      (fun _ => { s with message_count := s.message_count + 1, updated_at := now })
      (fun x _ _ => hid),
    h']
  rfl

theorem get_transcript_count_append (st : Store) (sid : String)
    (t : GeminiTranscriptModel) (ht : t.session_id = sid) :
    get_transcript_count { st with transcripts := st.transcripts ++ [t] } sid
      = get_transcript_count st sid + 1 := by
  unfold get_transcript_count sessionTranscripts
  simp [List.filter_append, ht]

theorem applyAppends_spec (sid : String) (calls : List AppendCall) :
    ∀ (st : Store) (s : GeminiSessionModel),
      get_session_by_id st sid = some s →
      get_transcript_count st sid = s.message_count →
      (calls.map (fun c => c.id)).Nodup →
      (∀ c ∈ calls, ∀ t ∈ st.transcripts, t.id ≠ c.id) →
      ∃ s', get_session_by_id (applyAppends st sid calls) sid = some s' ∧
        s'.message_count = s.message_count + calls.length ∧
        get_transcript_count (applyAppends st sid calls) sid
          = s.message_count + calls.length := by
  induction calls with
  | nil =>
    intro st s hs hc _ _
    exact ⟨s, hs, by simp, by simpa using hc⟩
  | cons c cs ih =>
    intro st s hs hc hnd hfresh
    rw [List.map_cons, List.nodup_cons] at hnd
    have hguard : (st.transcripts.any (fun r => r.id == c.id)) = false := by
      rw [List.any_eq_false]
      intro t ht
      simpa using hfresh c (List.mem_cons_self _ _) t ht
    have hstep : applyAppends st sid (c :: cs)
        = applyAppends
            ((increment_message_count
              { st with transcripts := st.transcripts ++
                  [⟨c.id, sid, c.role, c.content, c.audio_duration, c.now⟩] } sid c.now).2)
            sid cs := by
      unfold applyAppends
      simp only [List.foldl_cons]
      congr 1
      unfold add_transcript
      rw [if_neg (by simp [hguard])]
    rw [hstep]
    have hs1 : get_session_by_id
        { st with transcripts := st.transcripts ++
            [⟨c.id, sid, c.role, c.content, c.audio_duration, c.now⟩] } sid = some s := hs
    have hs2 := get_session_by_id_increment _ sid c.now s hs1
    have hcount : get_transcript_count
        ((increment_message_count
          { st with transcripts := st.transcripts ++
              [⟨c.id, sid, c.role, c.content, c.audio_duration, c.now⟩] } sid c.now).2) sid
        = s.message_count + 1 := by
      rw [get_transcript_count_congr _ _ sid (increment_message_count_transcripts _ _ _),
        get_transcript_count_append st sid _ rfl, hc]
    have hfresh' : ∀ c' ∈ cs, ∀ t ∈
        ((increment_message_count
          { st with transcripts := st.transcripts ++
              [⟨c.id, sid, c.role, c.content, c.audio_duration, c.now⟩] } sid c.now).2).transcripts,
        t.id ≠ c'.id := by
      intro c' hc' t ht
      rw [increment_message_count_transcripts] at ht
      rcases List.mem_append.mp ht with h1 | h1
      · exact hfresh c' (List.mem_cons_of_mem _ hc') t h1
      · rw [List.mem_singleton.mp h1]
        intro he
        have hce : c.id = c'.id := he
        have hmm : c.id ∈ cs.map (fun x => x.id) := by
          rw [hce]
          exact List.mem_map_of_mem (fun x => x.id) hc'
        exact hnd.1 hmm
    obtain ⟨s'', h1, h2, h3⟩ := ih _ _ hs2 hcount hnd.2 hfresh'
    refine ⟨s'', h1, ?_, ?_⟩
    · rw [h2]
      simp only [List.length_cons]
      omega
    · rw [h3]
      simp only [List.length_cons]
      omega

/-- C1: starting from any store in which the fresh session id is unused and
no transcript row references it, `create_session` followed by a sequence of
`add_transcript` calls (with fresh transcript ids and no other interleaved
operation) leaves the session's `message_count` equal to the number of
appends, and equal to `get_transcript_count`. -/
theorem messageCount_eq_countTranscripts (st0 : Store) (uid : String)
    (model voice : Option String) (sid : String) (now0 : Nat)
    (calls : List AppendCall)
    (hsid : ∀ s ∈ st0.sessions, s.id ≠ sid)
    (htr : ∀ t ∈ st0.transcripts, t.session_id ≠ sid)
    (hnd : (calls.map (fun c => c.id)).Nodup)
    (hfresh : ∀ c ∈ calls, ∀ t ∈ st0.transcripts, t.id ≠ c.id) :
    (get_session_by_id
        (applyAppends ((create_session st0 uid model voice sid now0).2) sid calls) sid).map
        (fun s => s.message_count)
      = some calls.length ∧
    get_transcript_count
        (applyAppends ((create_session st0 uid model voice sid now0).2) sid calls) sid
      = calls.length := by
  have hguard : (st0.sessions.any (fun s => s.id == sid)) = false := by
    rw [List.any_eq_false]
    intro s hsx
    simpa using hsid s hsx
  have hstc : (create_session st0 uid model voice sid now0).2
      = { st0 with sessions := st0.sessions ++
          [⟨sid, uid, none, none, "active", model, voice, 0, none, now0, now0⟩] } := by
    unfold create_session
    rw [if_neg (by simp [hguard])]
  have hfind : get_session_by_id
      { st0 with sessions := st0.sessions ++
          [⟨sid, uid, none, none, "active", model, voice, 0, none, now0, now0⟩] } sid
      = some ⟨sid, uid, none, none, "active", model, voice, 0, none, now0, now0⟩ := by
    unfold get_session_by_id
    rw [List.find?_append, List.find?_eq_none.mpr (fun x hx => by simpa using hsid x hx)]
    simp
  have hcount0 : get_transcript_count
      { st0 with sessions := st0.sessions ++
          [⟨sid, uid, none, none, "active", model, voice, 0, none, now0, now0⟩] } sid = 0 := by
    unfold get_transcript_count sessionTranscripts
    simp only [List.length_eq_zero]
    exact List.filter_eq_nil_iff.mpr (fun t ht => by simpa using htr t ht)
  obtain ⟨s', h1, h2, h3⟩ :=
    applyAppends_spec sid calls _ _ hfind hcount0 hnd hfresh
  rw [hstc]
  refine ⟨?_, ?_⟩
  · rw [h1]
    simpa using h2
  · simpa using h3

/-- Transcript appends for the C1 witness. -/
def witnessCalls : List AppendCall :=
  [⟨"user", "hi", none, "t1", 10⟩, ⟨"assistant", "yo", some 5, "t2", 11⟩]

/-- Witness for C1: two appends to a freshly created session leave
`message_count = 2 = get_transcript_count`. -/
theorem messageCount_eq_countTranscripts_witness :
    (get_session_by_id
        (applyAppends ((create_session emptyStore "u1" none none "s1" 0).2) "s1" witnessCalls)
        "s1").map (fun s => s.message_count) = some 2 ∧
    get_transcript_count
        (applyAppends ((create_session emptyStore "u1" none none "s1" 0).2) "s1" witnessCalls)
        "s1" = 2 := by
  have h := messageCount_eq_countTranscripts emptyStore "u1" none none "s1" 0 witnessCalls
    (by decide) (by decide) (by decide) (by decide)
  simpa [witnessCalls] using h

/-- Tail of a separator join: the separator before every element. -/
def sepTail (s : String) : List String → String
  | [] => ""
  | a :: as => s ++ a ++ sepTail s as

theorem empty_append_str (sx : String) : "" ++ sx = sx :=
  String.ext
    (by rw [String.data_append, show ("" : String).data = [] from rfl, List.nil_append])

theorem intercalate_go_eq (s : String) (l : List String) :
    ∀ acc, String.intercalate.go acc s l = acc ++ sepTail s l := by
  induction l with
  | nil =>
    intro acc
    rw [show String.intercalate.go acc s [] = acc from rfl, sepTail, String.append_empty]
  | cons a as ih =>
    intro acc
    rw [show String.intercalate.go acc s (a :: as)
        = String.intercalate.go (acc ++ s ++ a) s as from rfl, ih, sepTail]
    simp [String.append_assoc]

theorem intercalate_eq_sepTail (s a : String) (as : List String) :
    String.intercalate s (a :: as) = a ++ sepTail s as :=
  intercalate_go_eq s as a

theorem format_transcript_ne_empty (l : List GeminiTranscriptModel) (h : l ≠ []) :
    format_transcript_for_context l ≠ "" := by
  cases l with
  | nil => exact absurd rfl h
  | cons t rest =>
    unfold format_transcript_for_context
    rw [List.map_cons, intercalate_eq_sepTail]
    intro he
    have hd := congrArg String.data he
    simp only [String.data_append, show ("[" : String).data = ['['] from rfl] at hd
    simp at hd

theorem format_empty_iff (l : List GeminiTranscriptModel) :
    format_transcript_for_context l = "" ↔ l = [] := by
  constructor
  · intro h
    by_contra hne
    exact format_transcript_ne_empty l hne h
  · intro h
    rw [h]
    rfl

/-- C7 counterexample: with `summary = some ""` (a summary is present) and no
transcripts, the prompt contains no `PREVIOUS CONTEXT:` block at all — it is
the bare header plus trailer, byte-identical to the `summary = none` output,
because the code tests Python truthiness rather than presence. -/
theorem contextPrompt_emptySummary_counterexample :
    contextPrompt (some "") [] = String.intercalate "\n" (promptBase ++ promptTrailer) ∧
    contextPrompt (some "") [] = contextPrompt none [] :=
  ⟨rfl, rfl⟩

/-- C7 (amended): the formatter output is, in order, the fixed
session-restoration header; a `PREVIOUS CONTEXT:` block with the summary
verbatim iff a summary is present *and non-empty*; a `RECENT CONVERSATION:`
block with one formatted item per entry (`[USER]: c` when the role is
`user`, `[GEMINI]: c` for every other role) iff the transcript sequence is
non-empty; and the fixed trailing instruction block. -/
theorem contextPrompt_structure (summary : Option String)
    (ts : List GeminiTranscriptModel) :
    contextPrompt summary ts =
      "[SESSION RESTORATION - Please read carefully before responding]" ++ "\n" ++ "\n"
        ++ (if summary.getD "" = "" then ""
            else "PREVIOUS CONTEXT:" ++ "\n" ++ summary.getD "" ++ "\n" ++ "\n")
        ++ (if ts = [] then ""
            else "RECENT CONVERSATION:" ++ "\n"
              ++ String.intercalate "\n"
                  (ts.map (fun t =>
                    "[" ++ (if t.role = "user" then "USER" else "GEMINI") ++ "]: "
                      ++ t.content))
              ++ "\n" ++ "\n")
        ++ String.intercalate "\n" promptTrailer := by
  have hmap : ts.map (fun t =>
        "[" ++ (if t.role = "user" then "USER" else "GEMINI") ++ "]: " ++ t.content)
      = ts.map (fun t =>
        "[" ++ (if t.role == "user" then "USER" else "GEMINI") ++ "]: " ++ t.content) := by
    apply List.map_congr_left
    intro t _
    by_cases hr : t.role = "user" <;> simp [hr]
  unfold contextPrompt build_context_restoration_prompt
  by_cases hs : summary.getD "" = ""
  · have hsb : (summary.getD "" == "") = true := by simpa using hs
    by_cases ht : ts = []
    · subst ht
      rw [if_pos hs, if_pos rfl]
      simp only [hsb]
      rw [show format_transcript_for_context [] = "" from rfl]
      simp only [beq_self_eq_true, if_true, if_false]
      unfold promptBase promptTrailer
      simp only [List.nil_append, List.append_nil, List.cons_append]
      rw [intercalate_eq_sepTail, intercalate_eq_sepTail]
      simp [sepTail, ← String.append_assoc, String.append_empty, empty_append_str] <;>
        simp [String.append_assoc]
    · have hf : (format_transcript_for_context ts == "") = false := by
        simpa using format_transcript_ne_empty ts ht
      rw [if_pos hs, if_neg ht]
      simp only [hsb, hf, if_true, if_false]
      unfold format_transcript_for_context
      rw [hmap]
      unfold promptBase promptTrailer
      simp only [List.nil_append, List.append_nil, List.cons_append]
      rw [intercalate_eq_sepTail, intercalate_eq_sepTail]
      simp [sepTail, ← String.append_assoc, String.append_empty, empty_append_str] <;>
        simp [String.append_assoc]
  · have hsb : (summary.getD "" == "") = false := by simpa using hs
    by_cases ht : ts = []
    · subst ht
      rw [if_neg hs, if_pos rfl]
      simp only [hsb]
      rw [show format_transcript_for_context [] = "" from rfl]
      simp only [beq_self_eq_true, if_true, if_false]
      unfold promptBase promptTrailer
      simp only [List.nil_append, List.append_nil, List.cons_append]
      rw [intercalate_eq_sepTail, intercalate_eq_sepTail]
      simp [sepTail, ← String.append_assoc, String.append_empty, empty_append_str] <;>
        simp [String.append_assoc]
    · have hf : (format_transcript_for_context ts == "") = false := by
        simpa using format_transcript_ne_empty ts ht
      rw [if_neg hs, if_neg ht]
      simp only [hsb, hf, if_true, if_false]
      unfold format_transcript_for_context
      rw [hmap]
      unfold promptBase promptTrailer
      simp only [List.nil_append, List.append_nil, List.cons_append]
      rw [intercalate_eq_sepTail, intercalate_eq_sepTail]
      simp [sepTail, ← String.append_assoc, String.append_empty, empty_append_str] <;>
        simp [String.append_assoc]

end GeminiLive
